import Mathlib

/-! # Guild welcome configuration store and asset keys (ftqo/kirby2)

A shallow embedding of `database/database.go` (the `guild_welcome` table and the
operations on it) and of `GetAssets` in `files/assets.go` (the logical-key
derivation and the two loops that fill the maps).

* The table `guild_welcome(guild_id PRIMARY KEY, channel_id, type, message_text,
  image, image_text)` is a map from the primary key to the five remaining
  columns.
* Every mutating function of `database.go` is the same skeleton: `pool.Acquire`,
  `conn.Begin`, `tx.Exec`, `tx.Commit`, each followed by `if err != nil` that only
  logs.  Which of the four calls fails is an input of the model (`Faults`).
* The Go functions have no result values; what a call leaves behind is the table,
  the lines written to the logger, and whether the goroutine panicked.
-/

namespace Kirby

/-! ## Data model -/

/-- The `GuildWelcome` value filled by `row.Scan` in `GetGuildWelcome`: six
string fields.  The Go field `Type` is written `Type_` here. -/
structure GuildWelcome where
  GuildID : String
  ChannelID : String
  Type_ : String
  Text : String
  Image : String
  ImageText : String
deriving DecidableEq

/-- The non-key columns of one row of `guild_welcome` (all `TEXT NOT NULL`). -/
structure Row where
  channel_id : String
  type : String
  message_text : String
  image : String
  image_text : String
deriving DecidableEq

/-- The table `guild_welcome`: `guild_id` is the primary key, so there is at most
one row per guild ID. -/
abbrev Table := String → Option Row

/-- The table with no rows. -/
def Table.empty : Table := fun _ => none

/-- The Go zero value `GuildWelcome{}`: every field is the empty string. -/
def GuildWelcome.zero : GuildWelcome := ⟨"", "", "", "", "", ""⟩

/-! ## The SQL statements -/

/-- Statement `INSERT INTO guild_welcome (...) VALUES ($1, ..., $6) ON CONFLICT (guild_id) DO NOTHING`. -/
def insertOnConflictDoNothing (guildId : String) (r : Row) (t : Table) : Table :=
  fun k => if k = guildId then (match t k with
    | some old => some old
    | none => some r) else t k

/-- Statement `DELETE FROM guild_welcome WHERE guild_id = $1`. -/
def deleteWhere (guildId : String) (t : Table) : Table :=
  fun k => if k = guildId then none else t k

/-- Statement `UPDATE guild_welcome SET <column> = $1 WHERE guild_id = $2`, the column
assignment given as a function on rows.  No row matching means no row changed;
PostgreSQL reports that as success with zero rows affected. -/
def updateWhere (guildId : String) (set : Row → Row) (t : Table) : Table :=
  fun k => if k = guildId then (t k).map set else t k

/-- Statement `SELECT guild_id, channel_id, type, message_text, image, image_text FROM
guild_welcome WHERE guild_id = $1`: the row, if there is one. -/
def selectWhere (guildId : String) (t : Table) : Option GuildWelcome :=
  (t guildId).map fun r =>
    ⟨guildId, r.channel_id, r.type, r.message_text, r.image, r.image_text⟩

/-! ## Transactions -/

/-- Which of the four database calls of one function invocation return an error.
An error of `tx.Commit` can reach the client before the server has committed or
after it (the reply is lost); `applied` tells, for a `tx.Commit` that returns an
error, that the server had committed.  It is read in no other case. -/
structure Faults where
  acquire : Bool
  begin : Bool
  exec : Bool
  commit : Bool
  applied : Bool
deriving DecidableEq

/-- Every call succeeds. -/
def Faults.ok : Faults := ⟨false, false, false, false, false⟩

/-- The call has failed with nothing committed: a call before `tx.Commit`
returned an error, or `tx.Commit` did and the server had not committed. -/
def Faults.nothingCommitted (f : Faults) : Bool :=
  f.acquire || f.begin || f.exec || (f.commit && !f.applied)

/-- Some call fails. -/
def Faults.any (f : Faults) : Bool := f.acquire || f.begin || f.exec || f.commit

/-- What a call of a mutating function leaves behind.  The Go functions return no
value: `table` is the stored state afterwards, `log` the messages passed to
`logger.L.Error()`, and `panicked` tells that the call ended in a run-time panic
(a method call through the nil handle that a failed `Acquire` or `Begin`
returned). -/
structure Effect where
  table : Table
  log : List String
  panicked : Bool

/-- The common body of the mutating functions, `what` being the text that ends
their log messages and `stmt` the effect of the statement given to `tx.Exec`.

* `pool.Acquire` fails: logged, `conn` is nil, and `conn.Begin` dereferences it.
* `conn.Begin` fails: logged, `tx` is nil, and `tx.Exec` dereferences it.
* `tx.Exec` fails: logged; the function goes on to `tx.Commit`, which cannot
  commit a failed transaction and returns an error too, logged as well.
* `tx.Commit` fails: logged; the statement is committed if the server had
  committed before the error (`f.applied`), and not otherwise.  The function
  cannot tell the two apart.
* otherwise the statement is committed.

There is no call of `tx.Rollback` in any branch. -/
def runTx (what : String) (f : Faults) (stmt : Table → Table) (t : Table) : Effect :=
  if f.acquire then
    ⟨t, ["Failed to acquire connection for " ++ what], true⟩
  else if f.begin then
    ⟨t, ["Failed to begin transaction for " ++ what], true⟩
  else if f.exec then
    ⟨t, ["Failed to execute statement for " ++ what,
         "Failed to commit transaction for " ++ what], false⟩
  else if f.commit then
    ⟨if f.applied then stmt t else t, ["Failed to commit transaction for " ++ what], false⟩
  else
    ⟨stmt t, [], false⟩

/-! ## The functions of `database.go`

`NewDefaultGuildWelcome` is declared outside the files at hand; its result is the
parameter `dgw` of `InitGuild` and `ResetGuild`.  Only its fields `ChannelID`,
`Type`, `Text`, `Image` and `ImageText` are read. -/

/-- The row that `InitGuild` inserts: the five non-key fields of `dgw`. -/
def defaultRow (dgw : GuildWelcome) : Row :=
  ⟨dgw.ChannelID, dgw.Type_, dgw.Text, dgw.Image, dgw.ImageText⟩

/-- Go `func InitGuild(guildId string)`. -/
def InitGuild (dgw : GuildWelcome) (f : Faults) (guildId : String) (t : Table) : Effect :=
  runTx "guild initialization" f (insertOnConflictDoNothing guildId (defaultRow dgw)) t

/-- Go `func CutGuild(guildId string)`. -/
def CutGuild (f : Faults) (guildId : String) (t : Table) : Effect :=
  runTx "guild cutting" f (deleteWhere guildId) t

/-- Go `func ResetGuild(guildId string)`: `CutGuild` then `InitGuild`, each with its
own connection and transaction (`f₁`, `f₂` are their faults).  A panic in
`CutGuild` ends the call before `InitGuild` runs. -/
def ResetGuild (dgw : GuildWelcome) (f₁ f₂ : Faults) (guildId : String) (t : Table) : Effect :=
  let cut := CutGuild f₁ guildId t
  if cut.panicked then cut
  else
    let ini := InitGuild dgw f₂ guildId cut.table
    ⟨ini.table, cut.log ++ ini.log, ini.panicked⟩

/-- The stored states around the two commits of `ResetGuild` when no call fails:
before the call, after `CutGuild` has committed, after `InitGuild` has
committed. -/
def ResetGuildStates (dgw : GuildWelcome) (guildId : String) (t : Table) : List Table :=
  [t, (CutGuild Faults.ok guildId t).table,
   (InitGuild dgw Faults.ok guildId (CutGuild Faults.ok guildId t).table).table]

/-- What a call of `GetGuildWelcome` gives: `value` is the returned record (`none`
when the call panicked and returned nothing), `log` the logged messages. -/
structure ReadEffect where
  value : Option GuildWelcome
  log : List String
deriving DecidableEq

/-- Go `func GetGuildWelcome(guildId string) GuildWelcome`.  `gw` starts as
`GuildWelcome{}`; `row.Scan` fills it when the query gave a row and otherwise
returns an error (`f.exec`, or no row) and leaves `gw` as it was; the error is
logged and `gw` is returned all the same.  The function never commits, so
`f.commit` and `f.applied` are not read. -/
def GetGuildWelcome (f : Faults) (guildId : String) (t : Table) : ReadEffect :=
  if f.acquire then
    ⟨none, ["Failed to acquire connection for guild welcome"]⟩
  else if f.begin then
    ⟨none, ["Failed to begin transaction for guild welcome"]⟩
  else
    match (if f.exec then none else selectWhere guildId t) with
    | some gw => ⟨some gw, []⟩
    | none => ⟨some GuildWelcome.zero, ["Failed to scan query for guild welcome"]⟩

/-- Go `func SetGuildWelcomeChannel(guildId, channelId string)`. -/
def SetGuildWelcomeChannel (f : Faults) (guildId channelId : String) (t : Table) : Effect :=
  runTx "set guild welcome channel" f
    (updateWhere guildId fun r => { r with channel_id := channelId }) t

/-- Go `func SetGuildWelcomeType(guildId, welcomeType string)`; its log messages end
in "set guild welcome image" in the source. -/
def SetGuildWelcomeType (f : Faults) (guildId welcomeType : String) (t : Table) : Effect :=
  runTx "set guild welcome image" f
    (updateWhere guildId fun r => { r with type := welcomeType }) t

/-- Go `func SetGuildWelcomeText(guildId, messageText string)`. -/
def SetGuildWelcomeText (f : Faults) (guildId messageText : String) (t : Table) : Effect :=
  runTx "set guild welcome message text" f
    (updateWhere guildId fun r => { r with message_text := messageText }) t

/-- Go `func SetGuildWelcomeImage(guildId, image string)`. -/
def SetGuildWelcomeImage (f : Faults) (guildId image : String) (t : Table) : Effect :=
  runTx "set guild welcome image" f
    (updateWhere guildId fun r => { r with image := image }) t

/-- Go `func SetGuildWelcomeImageText(guildId, imageText string)`. -/
def SetGuildWelcomeImageText (f : Faults) (guildId imageText : String) (t : Table) : Effect :=
  runTx "set guild welcome image text" f
    (updateWhere guildId fun r => { r with image_text := imageText }) t

/-- The record that `GetGuildWelcome` is to return for a guild holding the
default row: the guild's ID with the five fields of `dgw`. -/
def defaultFor (dgw : GuildWelcome) (guildId : String) : GuildWelcome :=
  { dgw with GuildID := guildId }

/-- A concrete default record for evaluating the model (empty channel, text type,
a greeting, a background name, empty image text). -/
def sampleDefault : GuildWelcome :=
  ⟨"", "", "text", "hi %mention% welcome to %guild%", "original", ""⟩

/-- A table with one user-modified row, for guild "1". -/
def sampleTable : Table :=
  fun k => if k = "1" then some ⟨"42", "image", "hello", "beach", "hey"⟩ else none

/-- A table whose one row, for the guild ID "", has every column empty. -/
def blankTable : Table :=
  fun k => if k = "" then some ⟨"", "", "", "", ""⟩ else none

/-- Only `tx.Commit` fails, the server not having committed. -/
def Faults.commitOnly : Faults := ⟨false, false, false, true, false⟩

/-- Only `tx.Commit` fails, the server having committed. -/
def Faults.commitLost : Faults := ⟨false, false, false, true, true⟩

/-! ## Sequences of calls -/

/-- One call of one of the five setters, with its value argument. -/
inductive SetterCall where
  | channel (v : String)
  | type (v : String)
  | text (v : String)
  | image (v : String)
  | imageText (v : String)
deriving DecidableEq

/-- The setter call `c` on guild `g`. -/
def SetterCall.run (f : Faults) (g : String) : SetterCall → Table → Effect
  | .channel v, t => SetGuildWelcomeChannel f g v t
  | .type v, t => SetGuildWelcomeType f g v t
  | .text v, t => SetGuildWelcomeText f g v t
  | .image v, t => SetGuildWelcomeImage f g v t
  | .imageText v, t => SetGuildWelcomeImageText f g v t

/-- A finite sequence of setter calls on guild `g`, none of whose database calls
fails, run from left to right. -/
def runSetters (g : String) : List SetterCall → Table → Table
  | [], t => t
  | c :: cs, t => runSetters g cs (c.run Faults.ok g t).table

/-- One call of a mutating function of the store. -/
inductive Call where
  | init (g : String)
  | cut (g : String)
  | reset (g : String)
  | set (g : String) (c : SetterCall)
deriving DecidableEq

/-- The stored state after the call, no database call failing. -/
def Call.run (dgw : GuildWelcome) : Call → Table → Table
  | .init g, t => (InitGuild dgw Faults.ok g t).table
  | .cut g, t => (CutGuild Faults.ok g t).table
  | .reset g, t => (ResetGuild dgw Faults.ok Faults.ok g t).table
  | .set g c, t => (c.run Faults.ok g t).table

/-- A finite sequence of calls run from left to right. -/
def runCalls (dgw : GuildWelcome) : List Call → Table → Table
  | [], t => t
  | c :: cs, t => runCalls dgw cs (c.run dgw t)

/-- The values offered for the option `type` of `/welcome set` in
`discord/commands.go`. -/
def typeChoices : List String := ["image", "text"]

/-- The values offered for the option `image` of `/welcome set` in
`discord/commands.go`. -/
def imageChoices : List String :=
  ["original", "grey", "beach", "sleepy", "friends", "melon", "sky"]

/-- The call is not a `SetGuildWelcomeType` with a value outside `typeChoices`. -/
def Call.typeChosen : Call → Bool
  | .set _ (.type v) => decide (v ∈ typeChoices)
  | _ => true

/-- Every stored row has a type among `typeChoices`. -/
def TypesChosen (t : Table) : Prop :=
  ∀ g r, t g = some r → r.type ∈ typeChoices

/-! ## Asset keys (`files/assets.go`)

Go strings are byte strings and the indices below are byte offsets.  The two
separators are single bytes that never occur inside a multi-byte UTF-8 sequence,
so a file name is taken as its list of characters. -/

/-- Go `strings.Index(s, c)` for a one-character `c`: the offset of the first
occurrence, `-1` if there is none. -/
def Index : List Char → Char → Int
  | [], _ => -1
  | x :: xs, c => if x = c then 0 else if 0 ≤ Index xs c then Index xs c + 1 else -1

/-- Go `strings.LastIndex(s, c)` for a one-character `c`: the offset of the last
occurrence, `-1` if there is none. -/
def LastIndex : List Char → Char → Int
  | [], _ => -1
  | x :: xs, c => if 0 ≤ LastIndex xs c then LastIndex xs c + 1 else if x = c then 0 else -1

/-- The slice expression `s[lo:]`; out of range is a run-time panic (`none`). -/
def sliceFrom (s : List Char) (lo : Int) : Option (List Char) :=
  if 0 ≤ lo ∧ lo ≤ s.length then some (s.drop lo.toNat) else none

/-- The slice expression `s[:hi]`; out of range is a run-time panic (`none`). -/
def sliceTo (s : List Char) (hi : Int) : Option (List Char) :=
  if 0 ≤ hi ∧ hi ≤ s.length then some (s.take hi.toNat) else none

/-- The key that `GetAssets` derives from a file name, in the image loop and in
the font loop alike:
`noPre := fn[strings.LastIndex(fn, "-")+1:]`, `noExt := noPre[:strings.Index(noPre, ".")]`. -/
def assetKey (fn : List Char) : Option (List Char) :=
  match sliceFrom fn (LastIndex fn '-' + 1) with
  | none => none
  | some noPre => sliceTo noPre (Index noPre '.')

/-- After the spec's words, "stripping a leading ordering prefix (text before the
last `-`)": the name without the text up to and including its last `-`. -/
def specStripOrdinal (fn : List Char) : List Char :=
  if 0 ≤ LastIndex fn '-' then fn.drop (LastIndex fn '-' + 1).toNat else fn

/-- After the spec's words, "and the file extension": the name without its
extension, the suffix that starts at the last `.`; a name with no `.` has no
extension. -/
def specStripExt (s : List Char) : List Char :=
  if 0 ≤ LastIndex s '.' then s.take (LastIndex s '.').toNat else s

/-- The logical name as the spec words it: ordering prefix and file extension
stripped. -/
def specKey (fn : List Char) : List Char :=
  specStripExt (specStripOrdinal fn)

/-! ## Loading the assets (`GetAssets` in `files/assets.go`)

A Go map from string keys is a list of key-value pairs with no key twice; the
order of the pairs has no meaning.  The decoded image and the parsed font are
values of types `Img` and `Fnt` that the model does not look into. -/

/-- A Go `map[string]V`. -/
abbrev GoMap (V : Type) := List (List Char × V)

/-- The keys of the map. -/
def GoMap.keys {V : Type} (m : GoMap V) : List (List Char) := m.map Prod.fst

/-- The assignment `m[k] = v`: an entry with that key is replaced, otherwise one
is added. -/
def GoMap.set {V : Type} (m : GoMap V) (k : List Char) (v : V) : GoMap V :=
  (k, v) :: m.filter (fun e => decide (e.1 ≠ k))

/-- One entry of the listing of `assets/images`: the file name and what
`ioutil.ReadFile` followed by `image.Decode` gives, `none` when either returns an
error. -/
structure ImageFile (Img : Type) where
  name : List Char
  decoded : Option Img
deriving DecidableEq

/-- One entry of the listing of `assets/fonts`: the file name and what
`ioutil.ReadFile` followed by `truetype.Parse` gives, `none` when either returns
an error. -/
structure FontFile (Fnt : Type) where
  name : List Char
  parsed : Option Fnt
deriving DecidableEq

/-- The result of `truetype.NewFace(fnt, &truetype.Options{Size: size})`. -/
structure Face (Fnt : Type) where
  font : Fnt
  size : Nat
deriving DecidableEq

/-- Go `type Assets struct { Fonts map[string]font.Face; Images map[string]image.Image }`. -/
structure Assets (Img Fnt : Type) where
  Fonts : GoMap (Face Fnt)
  Images : GoMap Img
deriving DecidableEq

/-- The loop `for _, file := range imgs` of `GetAssets`, from the map `m` on.  A
failed read or decode ends in `logger.L.Panic()`, and a name with no key in a
slice out of range: `none`.  Otherwise `ass.Images[noExt]` is assigned. -/
def loadImages {Img : Type} : List (ImageFile Img) → GoMap Img → Option (GoMap Img)
  | [], m => some m
  | f :: fs, m =>
    match f.decoded, assetKey f.name with
    | some img, some noExt => loadImages fs (m.set noExt img)
    | _, _ => none

/-- The loop `for _, file := range fonts` of `GetAssets`, from the map `m` on:
each parsed font is stored twice, as `noExt+"Large"` with size 40 and as
`noExt+"Small"` with size 25. -/
def loadFonts {Fnt : Type} : List (FontFile Fnt) → GoMap (Face Fnt) → Option (GoMap (Face Fnt))
  | [], m => some m
  | f :: fs, m =>
    match f.parsed, assetKey f.name with
    | some fnt, some noExt =>
      loadFonts fs
        ((m.set (noExt ++ "Large".toList) ⟨fnt, 40⟩).set (noExt ++ "Small".toList) ⟨fnt, 25⟩)
    | _, _ => none

/-- Go `func GetAssets() *Assets`, the two directory listings given as arguments
(`none` when `ioutil.ReadDir` returns an error, which ends in
`logger.L.Panic()`).  The result is `none` when the call panics. -/
def GetAssets {Img Fnt : Type} (imgs : Option (List (ImageFile Img)))
    (fonts : Option (List (FontFile Fnt))) : Option (Assets Img Fnt) :=
  match imgs with
  | none => none
  | some is =>
    match loadImages is [] with
    | none => none
    | some images =>
      match fonts with
      | none => none
      | some fs =>
        match loadFonts fs [] with
        | none => none
        | some faces => some ⟨faces, images⟩

/-- Two image files of one directory, "01-beach.png" and "02-beach.png". -/
def sampleImages : List (ImageFile Nat) :=
  [⟨"01-beach.png".toList, some 0⟩, ⟨"02-beach.png".toList, some 1⟩]

/-- Two image files with different names after the ordering prefix. -/
def sampleImagesDistinct : List (ImageFile Nat) :=
  [⟨"01-beach.png".toList, some 0⟩, ⟨"02-sky.png".toList, some 1⟩]

/-- One font file, "01-coolvetica.ttf". -/
def sampleFonts : List (FontFile Nat) :=
  [⟨"01-coolvetica.ttf".toList, some 7⟩]

/-- Two font files whose names differ only in the ordering prefix and the
extension. -/
def sampleFontsClash : List (FontFile Nat) :=
  [⟨"01-a.ttf".toList, some 7⟩, ⟨"02-a.otf".toList, some 8⟩]

/-- A listing with one file, "README", that reads and decodes. -/
def sampleImagesPlain : List (ImageFile Nat) :=
  [⟨"README".toList, some 0⟩]

/-! ## Theorems -/

@[simp] theorem runTx_ok (what : String) (stmt : Table → Table) (t : Table) :
    runTx what Faults.ok stmt t = ⟨stmt t, [], false⟩ := by
  simp [runTx, Faults.ok]

/-- C1: from a store with no record for `g`, `InitGuild(g)` then
`GetGuildWelcome(g)` (no database call failing) returns the record whose
`GuildID` is `g` and whose other five fields are those of
`NewDefaultGuildWelcome()`, without logging anything. -/
theorem C1_init_then_get (dgw : GuildWelcome) (g : String) (t : Table) (h : t g = none) :
    GetGuildWelcome Faults.ok g (InitGuild dgw Faults.ok g t).table
      = ⟨some ⟨g, dgw.ChannelID, dgw.Type_, dgw.Text, dgw.Image, dgw.ImageText⟩, []⟩ := by
  simp [GetGuildWelcome, InitGuild, runTx, selectWhere, insertOnConflictDoNothing, h,
    defaultRow, Faults.ok]

theorem C1_init_then_get_witness :
    Table.empty "7" = none ∧
    GetGuildWelcome Faults.ok "7" (InitGuild sampleDefault Faults.ok "7" Table.empty).table
      = ⟨some ⟨"7", "", "text", "hi %mention% welcome to %guild%", "original", ""⟩, []⟩ :=
  ⟨rfl, C1_init_then_get sampleDefault "7" Table.empty rfl⟩

@[simp] theorem InitGuild_ok_table (dgw : GuildWelcome) (g : String) (t : Table) :
    (InitGuild dgw Faults.ok g t).table = insertOnConflictDoNothing g (defaultRow dgw) t := by
  simp [InitGuild]

@[simp] theorem CutGuild_ok_table (g : String) (t : Table) :
    (CutGuild Faults.ok g t).table = deleteWhere g t := by
  simp [CutGuild]

@[simp] theorem ResetGuild_ok_table (dgw : GuildWelcome) (g : String) (t : Table) :
    (ResetGuild dgw Faults.ok Faults.ok g t).table
      = insertOnConflictDoNothing g (defaultRow dgw) (deleteWhere g t) := by
  simp [ResetGuild, CutGuild, InitGuild]

theorem GetGuildWelcome_ok_some (g : String) (t : Table) (r : Row) (h : t g = some r) :
    GetGuildWelcome Faults.ok g t
      = ⟨some ⟨g, r.channel_id, r.type, r.message_text, r.image, r.image_text⟩, []⟩ := by
  simp [GetGuildWelcome, selectWhere, h, Faults.ok]

theorem GetGuildWelcome_ok_none (g : String) (t : Table) (h : t g = none) :
    GetGuildWelcome Faults.ok g t
      = ⟨some GuildWelcome.zero, ["Failed to scan query for guild welcome"]⟩ := by
  simp [GetGuildWelcome, selectWhere, h, Faults.ok]

theorem insert_after_delete_at (g : String) (r : Row) (t : Table) :
    insertOnConflictDoNothing g r (deleteWhere g t) g = some r := by
  simp [insertOnConflictDoNothing, deleteWhere]

theorem insert_present (g : String) (r : Row) (t : Table) (h : (t g).isSome) :
    insertOnConflictDoNothing g r t = t := by
  funext k
  by_cases hk : k = g
  · subst hk
    cases htk : t k with
    | none => simp [htk] at h
    | some old => simp [insertOnConflictDoNothing, htk]
  · simp [insertOnConflictDoNothing, hk]

theorem insert_isSome (g : String) (r : Row) (t : Table) :
    (insertOnConflictDoNothing g r t g).isSome := by
  cases htg : t g <;> simp [insertOnConflictDoNothing, htg]

theorem update_absent (g : String) (set : Row → Row) (t : Table) (h : t g = none) :
    updateWhere g set t = t := by
  funext k
  by_cases hk : k = g
  · subst hk
    simp [updateWhere, h]
  · simp [updateWhere, hk]

/-- C2: field isolation.  On a store holding the row `r` for guild `g`, each of
the five setters called with `(g, v)` (no database call failing) leaves for `g`
the record with the same guild ID, the targeted field equal to `v` and the other
four fields as in `r`, and leaves the row of every other guild as it was. -/
theorem C2_field_isolation (g v : String) (t : Table) (r : Row) (h : t g = some r) :
    ((GetGuildWelcome Faults.ok g (SetGuildWelcomeChannel Faults.ok g v t).table).value
        = some ⟨g, v, r.type, r.message_text, r.image, r.image_text⟩
      ∧ ∀ k, k ≠ g → (SetGuildWelcomeChannel Faults.ok g v t).table k = t k)
    ∧ ((GetGuildWelcome Faults.ok g (SetGuildWelcomeType Faults.ok g v t).table).value
        = some ⟨g, r.channel_id, v, r.message_text, r.image, r.image_text⟩
      ∧ ∀ k, k ≠ g → (SetGuildWelcomeType Faults.ok g v t).table k = t k)
    ∧ ((GetGuildWelcome Faults.ok g (SetGuildWelcomeText Faults.ok g v t).table).value
        = some ⟨g, r.channel_id, r.type, v, r.image, r.image_text⟩
      ∧ ∀ k, k ≠ g → (SetGuildWelcomeText Faults.ok g v t).table k = t k)
    ∧ ((GetGuildWelcome Faults.ok g (SetGuildWelcomeImage Faults.ok g v t).table).value
        = some ⟨g, r.channel_id, r.type, r.message_text, v, r.image_text⟩
      ∧ ∀ k, k ≠ g → (SetGuildWelcomeImage Faults.ok g v t).table k = t k)
    ∧ ((GetGuildWelcome Faults.ok g (SetGuildWelcomeImageText Faults.ok g v t).table).value
        = some ⟨g, r.channel_id, r.type, r.message_text, r.image, v⟩
      ∧ ∀ k, k ≠ g → (SetGuildWelcomeImageText Faults.ok g v t).table k = t k) := by
  refine ⟨⟨?_, ?_⟩, ⟨?_, ?_⟩, ⟨?_, ?_⟩, ⟨?_, ?_⟩, ⟨?_, ?_⟩⟩
  all_goals first
    | (intro k hk
       simp [SetGuildWelcomeChannel, SetGuildWelcomeType, SetGuildWelcomeText,
         SetGuildWelcomeImage, SetGuildWelcomeImageText, updateWhere, hk])
    | simp [GetGuildWelcome, SetGuildWelcomeChannel, SetGuildWelcomeType, SetGuildWelcomeText,
         SetGuildWelcomeImage, SetGuildWelcomeImageText, updateWhere, selectWhere, h, Faults.ok,
         runTx]

theorem C2_field_isolation_witness :
    sampleTable "1" = some ⟨"42", "image", "hello", "beach", "hey"⟩ ∧
    (GetGuildWelcome Faults.ok "1" (SetGuildWelcomeChannel Faults.ok "1" "99" sampleTable).table).value
      = some ⟨"1", "99", "image", "hello", "beach", "hey"⟩ :=
  ⟨by simp [sampleTable],
   (C2_field_isolation "1" "99" sampleTable ⟨"42", "image", "hello", "beach", "hey"⟩
      (by simp [sampleTable])).1.1⟩

/-- C3: reset law.  After any finite sequence of setter calls on `g`, from any
store, `ResetGuild(g)` (no database call failing) leaves for `g` exactly the
default record: `GetGuildWelcome(g)` returns the `NewDefaultGuildWelcome()` values
with `GuildID` `g`; and `ResetGuild(g)` twice leaves the same store as once. -/
theorem C3_reset_law (dgw : GuildWelcome) (g : String) (t : Table) (calls : List SetterCall) :
    GetGuildWelcome Faults.ok g
        (ResetGuild dgw Faults.ok Faults.ok g (runSetters g calls t)).table
      = ⟨some ⟨g, dgw.ChannelID, dgw.Type_, dgw.Text, dgw.Image, dgw.ImageText⟩, []⟩
    ∧ (ResetGuild dgw Faults.ok Faults.ok g
          (ResetGuild dgw Faults.ok Faults.ok g t).table).table
      = (ResetGuild dgw Faults.ok Faults.ok g t).table := by
  constructor
  · rw [GetGuildWelcome_ok_some g _ (defaultRow dgw)
      (by rw [ResetGuild_ok_table]; exact insert_after_delete_at g _ _)]
    rfl
  · simp only [ResetGuild_ok_table]
    funext k
    by_cases hk : k = g
    · subst hk
      simp [insertOnConflictDoNothing, deleteWhere]
    · simp [insertOnConflictDoNothing, deleteWhere, hk]

/-- C4: `InitGuild` inserts only if absent.  On a store that already holds a row
for `g`, `InitGuild(g)` (no database call failing) leaves the whole store as it
was; and from any store, `InitGuild(g)` twice leaves the same store as once. -/
theorem C4_init_if_absent (dgw : GuildWelcome) (g : String) (t : Table) :
    ((t g).isSome → (InitGuild dgw Faults.ok g t).table = t)
    ∧ (InitGuild dgw Faults.ok g (InitGuild dgw Faults.ok g t).table).table
      = (InitGuild dgw Faults.ok g t).table := by
  constructor
  · intro h
    simpa using insert_present g (defaultRow dgw) t h
  · simp only [InitGuild_ok_table]
    exact insert_present g (defaultRow dgw) _ (insert_isSome g (defaultRow dgw) t)

theorem C4_init_if_absent_witness :
    (sampleTable "1").isSome ∧ (InitGuild sampleDefault Faults.ok "1" sampleTable).table = sampleTable :=
  ⟨by simp [sampleTable], (C4_init_if_absent sampleDefault "1" sampleTable).1 (by simp [sampleTable])⟩

/-- C5, as the code has it: on a store with no row for `g`, `GetGuildWelcome(g)`
(no connection failure) logs the failed scan and returns the zero-valued
`GuildWelcome`, all six fields empty, `GuildID` included; there is no not-found
result. -/
theorem C5_get_absent_returns_zero (g : String) (t : Table) (h : t g = none) :
    GetGuildWelcome Faults.ok g t
      = ⟨some ⟨"", "", "", "", "", ""⟩, ["Failed to scan query for guild welcome"]⟩ :=
  GetGuildWelcome_ok_none g t h

theorem C5_get_absent_returns_zero_witness :
    Table.empty "7" = none ∧
    GetGuildWelcome Faults.ok "7" Table.empty
      = ⟨some ⟨"", "", "", "", "", ""⟩, ["Failed to scan query for guild welcome"]⟩ :=
  ⟨rfl, C5_get_absent_returns_zero "7" Table.empty rfl⟩

/-- C5 fails as stated: with no row stored, `GetGuildWelcome` returns the
zero-valued record, and for the guild ID "" that is the very value it returns
when a row with empty columns is stored. -/
theorem C5_counterexample :
    Table.empty "7" = none ∧
    (GetGuildWelcome Faults.ok "7" Table.empty).value = some GuildWelcome.zero ∧
    Table.empty "" = none ∧ blankTable "" ≠ none ∧
    (GetGuildWelcome Faults.ok "" Table.empty).value
      = (GetGuildWelcome Faults.ok "" blankTable).value := by
  refine ⟨rfl, ?_, rfl, ?_, ?_⟩
  · rw [GetGuildWelcome_ok_none "7" Table.empty rfl]
  · simp [blankTable]
  · rw [GetGuildWelcome_ok_none "" Table.empty rfl,
      GetGuildWelcome_ok_some "" blankTable ⟨"", "", "", "", ""⟩ (by simp [blankTable])]
    rfl

/-- C6, as the code has it: on a store with no row for `g`, each of the five
setters called with `(g, v)` (no database call failing) leaves the whole store as
it was, so creates no row for `g`, and ends without a log line and without a
panic: the update of zero rows is not a failure. -/
theorem C6_set_absent_silent (g v : String) (t : Table) (h : t g = none) :
    (SetGuildWelcomeChannel Faults.ok g v t).table = t
    ∧ (SetGuildWelcomeChannel Faults.ok g v t).log = []
    ∧ (SetGuildWelcomeChannel Faults.ok g v t).panicked = false
    ∧ (SetGuildWelcomeType Faults.ok g v t).table = t
    ∧ (SetGuildWelcomeType Faults.ok g v t).log = []
    ∧ (SetGuildWelcomeType Faults.ok g v t).panicked = false
    ∧ (SetGuildWelcomeText Faults.ok g v t).table = t
    ∧ (SetGuildWelcomeText Faults.ok g v t).log = []
    ∧ (SetGuildWelcomeText Faults.ok g v t).panicked = false
    ∧ (SetGuildWelcomeImage Faults.ok g v t).table = t
    ∧ (SetGuildWelcomeImage Faults.ok g v t).log = []
    ∧ (SetGuildWelcomeImage Faults.ok g v t).panicked = false
    ∧ (SetGuildWelcomeImageText Faults.ok g v t).table = t
    ∧ (SetGuildWelcomeImageText Faults.ok g v t).log = []
    ∧ (SetGuildWelcomeImageText Faults.ok g v t).panicked = false := by
  simp [SetGuildWelcomeChannel, SetGuildWelcomeType, SetGuildWelcomeText,
    SetGuildWelcomeImage, SetGuildWelcomeImageText, update_absent g _ t h]

theorem C6_set_absent_silent_witness :
    Table.empty "7" = none ∧ (SetGuildWelcomeChannel Faults.ok "7" "42" Table.empty).table = Table.empty :=
  ⟨rfl, (C6_set_absent_silent "7" "42" Table.empty rfl).1⟩

/-- C6 fails as stated: a setter called for a guild with no row ends exactly as a
call that went well, with nothing logged and no panic, the only signals the
function has. -/
theorem C6_counterexample :
    Table.empty "7" = none ∧
    (SetGuildWelcomeChannel Faults.ok "7" "42" Table.empty).log = [] ∧
    (SetGuildWelcomeChannel Faults.ok "7" "42" Table.empty).panicked = false := by
  simp [SetGuildWelcomeChannel, Table.empty]

theorem runTx_fault (what : String) (f : Faults) (stmt : Table → Table) (t : Table)
    (h : f.any = true) :
    (runTx what f stmt t).table = (if f.nothingCommitted then t else stmt t)
      ∧ (runTx what f stmt t).log ≠ [] := by
  obtain ⟨a, b, e, c, d⟩ := f
  cases a <;> cases b <;> cases e <;> cases c <;> cases d <;>
    simp [runTx, Faults.any, Faults.nothingCommitted] at h ⊢

theorem runTx_panicked_log (what : String) (f : Faults) (stmt : Table → Table) (t : Table)
    (h : (runTx what f stmt t).panicked = true) : (runTx what f stmt t).log ≠ [] := by
  obtain ⟨a, b, e, c, d⟩ := f
  cases a <;> cases b <;> cases e <;> cases c <;> cases d <;> simp [runTx] at h ⊢

theorem runTx_panicked_table (what : String) (f : Faults) (stmt : Table → Table) (t : Table)
    (h : (runTx what f stmt t).panicked = true) : (runTx what f stmt t).table = t := by
  obtain ⟨a, b, e, c, d⟩ := f
  cases a <;> cases b <;> cases e <;> cases c <;> cases d <;> simp [runTx] at h ⊢

theorem runTx_fault_ok (what : String) (f : Faults) (stmt : Table → Table) (t : Table)
    (h : f.any = true) :
    (runTx what f stmt t).table
        = (if f.nothingCommitted then t else (runTx what Faults.ok stmt t).table)
      ∧ (runTx what f stmt t).log ≠ [] := by
  rw [runTx_ok]
  exact runTx_fault what f stmt t h

/-- C7, as the code has it: when a step of `InitGuild`, `CutGuild` or one of the
five setters fails, the failure is written to the log (the functions return no
value and never call `Rollback`), and the store is left exactly as it was before
the call if the failing step is acquire, begin or execute, or is a commit that
the server had not carried out; when only the commit returns an error and the
server had carried it out, the store is left as by a call that went well.
`ResetGuild` runs two transactions: when its `InitGuild` fails with nothing
committed, the store is left as its `CutGuild` made it. -/
theorem C7_fault_keeps_store (dgw : GuildWelcome) (f : Faults) (g v : String) (t : Table)
    (h : f.any = true) :
    ((InitGuild dgw f g t).table
        = (if f.nothingCommitted then t else (InitGuild dgw Faults.ok g t).table)
      ∧ (InitGuild dgw f g t).log ≠ [])
    ∧ ((CutGuild f g t).table
        = (if f.nothingCommitted then t else (CutGuild Faults.ok g t).table)
      ∧ (CutGuild f g t).log ≠ [])
    ∧ ((SetGuildWelcomeChannel f g v t).table
        = (if f.nothingCommitted then t else (SetGuildWelcomeChannel Faults.ok g v t).table)
      ∧ (SetGuildWelcomeChannel f g v t).log ≠ [])
    ∧ ((SetGuildWelcomeType f g v t).table
        = (if f.nothingCommitted then t else (SetGuildWelcomeType Faults.ok g v t).table)
      ∧ (SetGuildWelcomeType f g v t).log ≠ [])
    ∧ ((SetGuildWelcomeText f g v t).table
        = (if f.nothingCommitted then t else (SetGuildWelcomeText Faults.ok g v t).table)
      ∧ (SetGuildWelcomeText f g v t).log ≠ [])
    ∧ ((SetGuildWelcomeImage f g v t).table
        = (if f.nothingCommitted then t else (SetGuildWelcomeImage Faults.ok g v t).table)
      ∧ (SetGuildWelcomeImage f g v t).log ≠ [])
    ∧ ((SetGuildWelcomeImageText f g v t).table
        = (if f.nothingCommitted then t else (SetGuildWelcomeImageText Faults.ok g v t).table)
      ∧ (SetGuildWelcomeImageText f g v t).log ≠ [])
    ∧ ∀ f₁ : Faults, (f.nothingCommitted = true →
          (ResetGuild dgw f₁ f g t).table = (CutGuild f₁ g t).table)
        ∧ (ResetGuild dgw f₁ f g t).log ≠ [] := by
  refine ⟨runTx_fault_ok _ f _ t h, runTx_fault_ok _ f _ t h, runTx_fault_ok _ f _ t h,
    runTx_fault_ok _ f _ t h, runTx_fault_ok _ f _ t h, runTx_fault_ok _ f _ t h,
    runTx_fault_ok _ f _ t h, ?_⟩
  intro f₁
  by_cases hp : (CutGuild f₁ g t).panicked = true
  · have hr : ResetGuild dgw f₁ f g t = CutGuild f₁ g t := by simp [ResetGuild, hp]
    rw [hr]
    exact ⟨fun _ => rfl, runTx_panicked_log _ f₁ _ t hp⟩
  · have hr : ResetGuild dgw f₁ f g t
        = ⟨(InitGuild dgw f g (CutGuild f₁ g t).table).table,
           (CutGuild f₁ g t).log ++ (InitGuild dgw f g (CutGuild f₁ g t).table).log,
           (InitGuild dgw f g (CutGuild f₁ g t).table).panicked⟩ := by
      simp [ResetGuild, hp]
    have hi := runTx_fault "guild initialization" f
      (insertOnConflictDoNothing g (defaultRow dgw)) (CutGuild f₁ g t).table h
    rw [hr]
    refine ⟨fun hn => ?_, ?_⟩
    · have h1 := hi.1
      rw [if_pos hn] at h1
      exact h1
    · intro hnil
      exact hi.2 (List.append_eq_nil.mp hnil).2

theorem C7_fault_keeps_store_witness :
    Faults.commitOnly.any = true ∧
    (SetGuildWelcomeChannel Faults.commitOnly "1" "99" sampleTable).table = sampleTable ∧
    Faults.commitLost.any = true ∧
    (SetGuildWelcomeChannel Faults.commitLost "1" "99" sampleTable).table
      = (SetGuildWelcomeChannel Faults.ok "1" "99" sampleTable).table :=
  ⟨rfl,
   (C7_fault_keeps_store sampleDefault Faults.commitOnly "1" "99" sampleTable rfl).2.2.1.1.trans
     (if_pos rfl),
   rfl,
   (C7_fault_keeps_store sampleDefault Faults.commitLost "1" "99" sampleTable rfl).2.2.1.1.trans
     (if_neg (by decide))⟩

/-- C7 fails as stated: when the commit of the second transaction of `ResetGuild`
fails, the row that the first transaction deleted stays deleted, so the store is
not left as it was before the call; and when the commit of
`SetGuildWelcomeChannel` returns an error after the server has committed, the row
is changed. -/
theorem C7_counterexample :
    Faults.commitOnly.any = true ∧
    sampleTable "1" = some ⟨"42", "image", "hello", "beach", "hey"⟩ ∧
    (ResetGuild sampleDefault Faults.ok Faults.commitOnly "1" sampleTable).table "1" = none ∧
    (ResetGuild sampleDefault Faults.ok Faults.commitOnly "1" sampleTable).table ≠ sampleTable ∧
    Faults.commitLost.any = true ∧
    (SetGuildWelcomeChannel Faults.commitLost "1" "99" sampleTable).table "1"
      = some ⟨"99", "image", "hello", "beach", "hey"⟩ := by
  have h1 : (ResetGuild sampleDefault Faults.ok Faults.commitOnly "1" sampleTable).table "1"
      = none := by
    simp [ResetGuild, CutGuild, InitGuild, runTx, Faults.ok, Faults.commitOnly, deleteWhere]
  refine ⟨rfl, by simp [sampleTable], h1, ?_, rfl, ?_⟩
  · intro heq
    rw [heq] at h1
    simp [sampleTable] at h1
  · simp [SetGuildWelcomeChannel, runTx, Faults.commitLost, updateWhere, sampleTable]

/-- C8, as the code has it: `ResetGuild(g)` commits twice.  The stored states from
its start to its end are the state before the call, the state after the commit
of `CutGuild`, in which the row for `g` is absent and a reader gets the
zero-valued record, and the state that `ResetGuild` leaves, in which the row for
`g` is the full default row.  In each of them the row for `g` is the prior row,
absent, or the full default row, never a partly defaulted one, and the row of
every other guild is as before. -/
theorem C8_reset_states (dgw : GuildWelcome) (g : String) (t : Table) :
    (∃ s₁ s₂, ResetGuildStates dgw g t = [t, s₁, s₂]
      ∧ s₁ = (CutGuild Faults.ok g t).table
      ∧ s₂ = (ResetGuild dgw Faults.ok Faults.ok g t).table
      ∧ s₁ g = none
      ∧ GetGuildWelcome Faults.ok g s₁
          = ⟨some GuildWelcome.zero, ["Failed to scan query for guild welcome"]⟩
      ∧ s₂ g = some (defaultRow dgw)
      ∧ GetGuildWelcome Faults.ok g s₂
          = ⟨some ⟨g, dgw.ChannelID, dgw.Type_, dgw.Text, dgw.Image, dgw.ImageText⟩, []⟩)
    ∧ ∀ s ∈ ResetGuildStates dgw g t,
        (s g = t g ∨ s g = none ∨ s g = some (defaultRow dgw)) ∧ ∀ k, k ≠ g → s k = t k := by
  have h1 : deleteWhere g t g = none := by simp [deleteWhere]
  have h2 : insertOnConflictDoNothing g (defaultRow dgw) (deleteWhere g t) g
      = some (defaultRow dgw) := insert_after_delete_at g _ t
  constructor
  · refine ⟨(CutGuild Faults.ok g t).table, (ResetGuild dgw Faults.ok Faults.ok g t).table,
      ?_, rfl, rfl, ?_, ?_, ?_, ?_⟩
    · simp [ResetGuildStates]
    · simpa using h1
    · exact GetGuildWelcome_ok_none g _ (by simpa using h1)
    · simpa using h2
    · rw [GetGuildWelcome_ok_some g _ (defaultRow dgw) (by simpa using h2)]
      rfl
  · intro s hs
    simp only [ResetGuildStates, InitGuild_ok_table, CutGuild_ok_table, List.mem_cons,
      List.mem_singleton, List.not_mem_nil, or_false] at hs
    rcases hs with rfl | rfl | rfl
    · exact ⟨Or.inl rfl, fun _ _ => rfl⟩
    · exact ⟨Or.inr (Or.inl h1), fun k hk => by simp [deleteWhere, hk]⟩
    · exact ⟨Or.inr (Or.inr h2),
        fun k hk => by simp [insertOnConflictDoNothing, deleteWhere, hk]⟩

theorem C8_reset_states_witness :
    deleteWhere "1" sampleTable ∈ ResetGuildStates sampleDefault "1" sampleTable ∧
    ∀ k, k ≠ "1" → deleteWhere "1" sampleTable k = sampleTable k :=
  ⟨by simp [ResetGuildStates],
   ((C8_reset_states sampleDefault "1" sampleTable).2 (deleteWhere "1" sampleTable)
      (by simp [ResetGuildStates])).2⟩

/-- C8 fails as stated: the guild "1" has a row before `ResetGuild("1")`, and the
state after the first of its two commits has none; a reader there gets the
zero-valued record, which is neither the prior record nor the default one. -/
theorem C8_counterexample :
    sampleTable "1" ≠ none ∧
    ∃ s ∈ ResetGuildStates sampleDefault "1" sampleTable,
      s "1" = none ∧
      (GetGuildWelcome Faults.ok "1" s).value = some GuildWelcome.zero ∧
      (GetGuildWelcome Faults.ok "1" s).value ≠ (GetGuildWelcome Faults.ok "1" sampleTable).value ∧
      (GetGuildWelcome Faults.ok "1" s).value ≠ some (defaultFor sampleDefault "1") := by
  refine ⟨by simp [sampleTable], deleteWhere "1" sampleTable, by simp [ResetGuildStates], ?_⟩
  have hd : deleteWhere "1" sampleTable "1" = none := by simp [deleteWhere]
  rw [GetGuildWelcome_ok_none "1" _ hd,
    GetGuildWelcome_ok_some "1" sampleTable ⟨"42", "image", "hello", "beach", "hey"⟩
      (by simp [sampleTable])]
  refine ⟨hd, rfl, ?_, ?_⟩ <;> simp [GuildWelcome.zero, defaultFor, sampleDefault]

theorem TypesChosen_empty : TypesChosen Table.empty := by
  intro g r h
  simp [Table.empty] at h

theorem TypesChosen_delete (g : String) (t : Table) (ht : TypesChosen t) :
    TypesChosen (deleteWhere g t) := by
  intro k r h
  by_cases hk : k = g
  · simp [deleteWhere, hk] at h
  · simp only [deleteWhere, hk, if_false] at h
    exact ht k r h

theorem TypesChosen_insert (g : String) (d : Row) (t : Table) (hd : d.type ∈ typeChoices)
    (ht : TypesChosen t) : TypesChosen (insertOnConflictDoNothing g d t) := by
  intro k r h
  by_cases hk : k = g
  · subst hk
    cases htk : t k with
    | none =>
      simp only [insertOnConflictDoNothing, htk, if_true, Option.some.injEq] at h
      rw [← h]
      exact hd
    | some old =>
      simp only [insertOnConflictDoNothing, htk, if_true, Option.some.injEq] at h
      rw [← h]
      exact ht k old htk
  · simp only [insertOnConflictDoNothing, hk, if_false] at h
    exact ht k r h

theorem TypesChosen_update (g : String) (set : Row → Row) (t : Table)
    (hset : ∀ r, r.type ∈ typeChoices → (set r).type ∈ typeChoices)
    (ht : TypesChosen t) : TypesChosen (updateWhere g set t) := by
  intro k r h
  by_cases hk : k = g
  · subst hk
    cases htk : t k with
    | none => simp [updateWhere, htk] at h
    | some old =>
      simp only [updateWhere, htk, if_true, Option.map_some', Option.some.injEq] at h
      rw [← h]
      exact hset old (ht k old htk)
  · simp only [updateWhere, hk, if_false] at h
    exact ht k r h

theorem TypesChosen_run (dgw : GuildWelcome) (hd : dgw.Type_ ∈ typeChoices) (c : Call)
    (hc : c.typeChosen = true) (t : Table) (ht : TypesChosen t) :
    TypesChosen (c.run dgw t) := by
  cases c with
  | init g =>
    simp only [Call.run, InitGuild_ok_table]
    exact TypesChosen_insert g _ t hd ht
  | cut g =>
    simp only [Call.run, CutGuild_ok_table]
    exact TypesChosen_delete g t ht
  | reset g =>
    simp only [Call.run, ResetGuild_ok_table]
    exact TypesChosen_insert g _ _ hd (TypesChosen_delete g t ht)
  | set g sc =>
    cases sc with
    | type v =>
      simp only [Call.run, SetterCall.run, SetGuildWelcomeType, runTx_ok]
      apply TypesChosen_update g _ t _ ht
      intro r _
      simpa [Call.typeChosen] using hc
    | channel v =>
      simp only [Call.run, SetterCall.run, SetGuildWelcomeChannel, runTx_ok]
      exact TypesChosen_update g _ t (fun r hr => hr) ht
    | text v =>
      simp only [Call.run, SetterCall.run, SetGuildWelcomeText, runTx_ok]
      exact TypesChosen_update g _ t (fun r hr => hr) ht
    | image v =>
      simp only [Call.run, SetterCall.run, SetGuildWelcomeImage, runTx_ok]
      exact TypesChosen_update g _ t (fun r hr => hr) ht
    | imageText v =>
      simp only [Call.run, SetterCall.run, SetGuildWelcomeImageText, runTx_ok]
      exact TypesChosen_update g _ t (fun r hr => hr) ht

theorem TypesChosen_runCalls (dgw : GuildWelcome) (hd : dgw.Type_ ∈ typeChoices)
    (calls : List Call) (hc : ∀ c ∈ calls, c.typeChosen = true) (t : Table)
    (ht : TypesChosen t) : TypesChosen (runCalls dgw calls t) := by
  induction calls generalizing t with
  | nil => exact ht
  | cons c cs ih =>
    simp only [runCalls]
    exact ih (fun c' hc' => hc c' (List.mem_cons_of_mem _ hc')) _
      (TypesChosen_run dgw hd c (hc c (List.mem_cons_self _ _)) t ht)

/-- C9, as the code has it: the store validates nothing.  On a store holding the
row `r` for `g`, `SetGuildWelcomeType(g, v)` and `SetGuildWelcomeImage(g, v)`
store any `v` as given and log nothing.  The stored type of every row is one of
the two values `image`, `text` in every state reached from the empty table by
calls whose `SetGuildWelcomeType` values are among those two (the choices the
command option offers), the default type being one of them. -/
theorem C9_unvalidated_writes (dgw : GuildWelcome) (g v : String) (t : Table) (r : Row)
    (h : t g = some r) (calls : List Call) (hd : dgw.Type_ ∈ typeChoices)
    (hc : ∀ c ∈ calls, c.typeChosen = true) :
    ((SetGuildWelcomeType Faults.ok g v t).table g = some { r with type := v }
      ∧ (SetGuildWelcomeType Faults.ok g v t).log = [])
    ∧ ((SetGuildWelcomeImage Faults.ok g v t).table g = some { r with image := v }
      ∧ (SetGuildWelcomeImage Faults.ok g v t).log = [])
    ∧ ∀ k row, runCalls dgw calls Table.empty k = some row →
        row.type = "image" ∨ row.type = "text" := by
  refine ⟨?_, ?_, ?_⟩
  · simp [SetGuildWelcomeType, updateWhere, h]
  · simp [SetGuildWelcomeImage, updateWhere, h]
  · intro k row hk
    have := TypesChosen_runCalls dgw hd calls hc Table.empty TypesChosen_empty k row hk
    simpa [typeChoices] using this

theorem C9_unvalidated_writes_witness :
    sampleTable "1" = some ⟨"42", "image", "hello", "beach", "hey"⟩ ∧
    sampleDefault.Type_ ∈ typeChoices ∧
    (∀ c ∈ [Call.init "1", Call.set "1" (SetterCall.type "image")], c.typeChosen = true) ∧
    (SetGuildWelcomeType Faults.ok "1" "text" sampleTable).table "1"
      = some ⟨"42", "text", "hello", "beach", "hey"⟩ :=
  ⟨by simp [sampleTable], by simp [sampleDefault, typeChoices],
   by simp [Call.typeChosen, typeChoices],
   (C9_unvalidated_writes sampleDefault "1" "text" sampleTable
      ⟨"42", "image", "hello", "beach", "hey"⟩ (by simp [sampleTable])
      [Call.init "1", Call.set "1" (SetterCall.type "image")]
      (by simp [sampleDefault, typeChoices])
      (by simp [Call.typeChosen, typeChoices])).1.1⟩

/-- C9 fails as stated: a type and an image name outside the known values are
stored without any failure, and a store state reached by `InitGuild` and
`SetGuildWelcomeType` holds a type that is neither `text` nor `image`. -/
theorem C9_counterexample :
    "bogus" ∉ typeChoices ∧ "bogus" ∉ imageChoices ∧
    sampleTable "1" = some ⟨"42", "image", "hello", "beach", "hey"⟩ ∧
    (SetGuildWelcomeType Faults.ok "1" "bogus" sampleTable).table "1"
      = some ⟨"42", "bogus", "hello", "beach", "hey"⟩ ∧
    (SetGuildWelcomeType Faults.ok "1" "bogus" sampleTable).log = [] ∧
    (SetGuildWelcomeImage Faults.ok "1" "bogus" sampleTable).table "1"
      = some ⟨"42", "image", "hello", "bogus", "hey"⟩ ∧
    (SetGuildWelcomeImage Faults.ok "1" "bogus" sampleTable).log = [] ∧
    runCalls sampleDefault [Call.init "1", Call.set "1" (SetterCall.type "bogus")] Table.empty "1"
      = some ⟨"", "bogus", "hi %mention% welcome to %guild%", "original", ""⟩ := by
  refine ⟨by simp [typeChoices], by simp [imageChoices], by simp [sampleTable], ?_, ?_, ?_, ?_, ?_⟩
  · simp [SetGuildWelcomeType, updateWhere, sampleTable]
  · simp [SetGuildWelcomeType]
  · simp [SetGuildWelcomeImage, updateWhere, sampleTable]
  · simp [SetGuildWelcomeImage]
  · simp [runCalls, Call.run, SetterCall.run, SetGuildWelcomeType, updateWhere,
      insertOnConflictDoNothing, Table.empty, defaultRow, sampleDefault]

theorem LastIndex_of_not_mem (s : List Char) (c : Char) (h : c ∉ s) : LastIndex s c = -1 := by
  induction s with
  | nil => rfl
  | cons x xs ih =>
    have hx : ¬ x = c := fun e => h (e ▸ List.mem_cons_self _ _)
    have hxs : c ∉ xs := fun m => h (List.mem_cons_of_mem _ m)
    simp [LastIndex, ih hxs, hx]

theorem LastIndex_append_cons (p rest : List Char) (c : Char) (h : c ∉ rest) :
    LastIndex (p ++ c :: rest) c = p.length := by
  induction p with
  | nil => simp [LastIndex, LastIndex_of_not_mem rest c h]
  | cons x xs ih =>
    have h0 : (0 : Int) ≤ (xs.length : Int) := Int.natCast_nonneg _
    simp [LastIndex, ih, h0]

theorem Index_append_cons (name ext : List Char) (c : Char) (h : c ∉ name) :
    Index (name ++ c :: ext) c = name.length := by
  induction name with
  | nil => simp [Index]
  | cons x xs ih =>
    have hx : ¬ x = c := fun e => h (e ▸ List.mem_cons_self _ _)
    have hxs : c ∉ xs := fun m => h (List.mem_cons_of_mem _ m)
    have h0 : (0 : Int) ≤ (xs.length : Int) := Int.natCast_nonneg _
    simp [Index, ih hxs, hx, h0]

theorem sliceTo_append (name rest : List Char) :
    sliceTo (name ++ rest) (name.length : Int) = some name := by
  have h0 : (0 : Int) ≤ (name.length : Int) := Int.natCast_nonneg _
  simp [sliceTo]

theorem sliceFrom_append (p rest : List Char) :
    sliceFrom (p ++ rest) (p.length : Int) = some rest := by
  have h0 : (0 : Int) ≤ (p.length : Int) := Int.natCast_nonneg _
  simp [sliceFrom]

theorem assetKey_plain (name ext : List Char) (hn : '-' ∉ name) (he : '-' ∉ ext)
    (hd : '.' ∉ name) : assetKey (name ++ '.' :: ext) = some name := by
  have hm : '-' ∉ name ++ '.' :: ext := by
    simp [hn, he]
  have hs : sliceFrom (name ++ '.' :: ext) (-1 + 1) = some (name ++ '.' :: ext) := by
    simpa using sliceFrom_append [] (name ++ '.' :: ext)
  simp only [assetKey, LastIndex_of_not_mem _ _ hm, hs, Index_append_cons name ext '.' hd]
  exact sliceTo_append name _

theorem assetKey_ordinal (p name ext : List Char) (hn : '-' ∉ name) (he : '-' ∉ ext)
    (hd : '.' ∉ name) : assetKey (p ++ '-' :: (name ++ '.' :: ext)) = some name := by
  have hm : '-' ∉ name ++ '.' :: ext := by
    simp [hn, he]
  have hs : sliceFrom (p ++ '-' :: (name ++ '.' :: ext)) ((p.length : Int) + 1)
      = some (name ++ '.' :: ext) := by
    have := sliceFrom_append (p ++ ['-']) (name ++ '.' :: ext)
    simpa using this
  simp only [assetKey, LastIndex_append_cons p _ '-' hm, hs,
    Index_append_cons name ext '.' hd]
  exact sliceTo_append name _

theorem specStripExt_single (name ext : List Char) (he : '.' ∉ ext) :
    specStripExt (name ++ '.' :: ext) = name := by
  have h0 : (0 : Int) ≤ (name.length : Int) := Int.natCast_nonneg _
  simp [specStripExt, LastIndex_append_cons name ext '.' he, h0]

theorem specStripOrdinal_plain (s : List Char) (h : '-' ∉ s) : specStripOrdinal s = s := by
  simp [specStripOrdinal, LastIndex_of_not_mem s '-' h]

theorem specStripOrdinal_ordinal (p rest : List Char) (h : '-' ∉ rest) :
    specStripOrdinal (p ++ '-' :: rest) = rest := by
  have h0 : (0 : Int) ≤ (p.length : Int) := Int.natCast_nonneg _
  have h1 : ((p.length : Int) + 1).toNat = (p ++ ['-']).length := by
    simp
  have h2 : p ++ '-' :: rest = (p ++ ['-']) ++ rest := by simp
  simp only [specStripOrdinal, LastIndex_append_cons p rest '-' h, h0, if_true, h1]
  rw [h2, List.drop_left]

/-- C10, as the code has it: for a file name with a `.` after its last `-` (with
no `-`, a `.` anywhere), the key that `GetAssets` computes is the text after the
last `-` (the whole name when there is none) up to the first `.` that follows.
When that is the only `.` after the last `-`, the key is the file name without
its ordering prefix and without its extension. -/
theorem C10_asset_key (p name ext : List Char) (hn : '-' ∉ name) (he : '-' ∉ ext)
    (hd : '.' ∉ name) :
    assetKey (p ++ '-' :: (name ++ '.' :: ext)) = some name
    ∧ assetKey (name ++ '.' :: ext) = some name
    ∧ ('.' ∉ ext →
        assetKey (p ++ '-' :: (name ++ '.' :: ext))
          = some (specKey (p ++ '-' :: (name ++ '.' :: ext)))
        ∧ assetKey (name ++ '.' :: ext) = some (specKey (name ++ '.' :: ext))) := by
  have hm : '-' ∉ name ++ '.' :: ext := by
    simp [hn, he]
  refine ⟨assetKey_ordinal p name ext hn he hd, assetKey_plain name ext hn he hd, ?_⟩
  intro hx
  constructor
  · rw [assetKey_ordinal p name ext hn he hd, specKey, specStripOrdinal_ordinal p _ hm,
      specStripExt_single name ext hx]
  · rw [assetKey_plain name ext hn he hd, specKey, specStripOrdinal_plain _ hm,
      specStripExt_single name ext hx]

theorem C10_asset_key_witness :
    '-' ∉ "beach".toList ∧ '-' ∉ "png".toList ∧ '.' ∉ "beach".toList ∧ '.' ∉ "png".toList ∧
    assetKey ("01".toList ++ '-' :: ("beach".toList ++ '.' :: "png".toList))
      = some "beach".toList ∧
    assetKey ("01".toList ++ '-' :: ("beach".toList ++ '.' :: "png".toList))
      = some (specKey ("01".toList ++ '-' :: ("beach".toList ++ '.' :: "png".toList))) :=
  ⟨by decide, by decide, by decide, by decide,
   (C10_asset_key "01".toList "beach".toList "png".toList
      (by decide) (by decide) (by decide)).1,
   ((C10_asset_key "01".toList "beach".toList "png".toList
      (by decide) (by decide) (by decide)).2.2 (by decide)).1⟩

/-- C10 fails as stated: for the name "01-beach", with no `.`, the slice
`noPre[:-1]` is out of range and no key is computed, where the claim has the key
"beach"; for "01-a.b.png" the key is "a", cut at the first `.`, where the name
without its extension is "a.b". -/
theorem C10_counterexample :
    assetKey "01-beach".toList = none ∧ specKey "01-beach".toList = "beach".toList ∧
    assetKey "01-a.b.png".toList = some "a".toList ∧
    specKey "01-a.b.png".toList = "a.b".toList := by
  decide

theorem GoMap.set_of_not_mem {V : Type} (m : GoMap V) (k : List Char) (v : V)
    (h : k ∉ m.keys) : m.set k v = (k, v) :: m := by
  have hf : m.filter (fun e => decide (e.1 ≠ k)) = m := by
    apply List.filter_eq_self.mpr
    intro e he
    have : e.1 ≠ k := fun hek => h (hek ▸ List.mem_map_of_mem Prod.fst he)
    simpa using this
  unfold GoMap.set
  rw [hf]

theorem large_ne_small (a b : List Char) : a ++ "Large".toList ≠ b ++ "Small".toList := by
  intro h
  have h2 := (List.append_inj' h (by decide)).2
  exact absurd h2 (by decide)

theorem loadImages_fresh {Img : Type} (imgs : List (ImageFile Img)) :
    ∀ m : GoMap Img,
      (∀ f ∈ imgs, f.decoded.isSome ∧ (assetKey f.name).isSome) →
      (imgs.map fun f => assetKey f.name).Nodup →
      (∀ f ∈ imgs, ∀ k, assetKey f.name = some k → k ∉ m.keys) →
      m.keys.Nodup →
      ∃ m', loadImages imgs m = some m' ∧ m'.length = m.length + imgs.length ∧
        m'.keys.Nodup ∧
        ∀ k, k ∈ m'.keys ↔ (k ∈ m.keys ∨ ∃ f ∈ imgs, assetKey f.name = some k) := by
  induction imgs with
  | nil =>
    intro m _ _ _ hm
    exact ⟨m, rfl, by simp, hm, by simp⟩
  | cons f fs ih =>
    intro m hok hnd hfresh hm
    obtain ⟨hdec, hkey⟩ := hok f (List.mem_cons_self _ _)
    obtain ⟨img, himg⟩ := Option.isSome_iff_exists.mp hdec
    obtain ⟨k, hk⟩ := Option.isSome_iff_exists.mp hkey
    have hkm : k ∉ m.keys := hfresh f (List.mem_cons_self _ _) k hk
    have hset : m.set k img = (k, img) :: m := GoMap.set_of_not_mem m k img hkm
    rw [List.map_cons, List.nodup_cons] at hnd
    have hstep : loadImages (f :: fs) m = loadImages fs ((k, img) :: m) := by
      simp [loadImages, himg, hk, hset]
    have hfresh2 : ∀ f2 ∈ fs, ∀ k2, assetKey f2.name = some k2 →
        k2 ∉ GoMap.keys ((k, img) :: m) := by
      intro f2 hf2 k2 hk2 hmem
      simp only [GoMap.keys, List.map_cons, List.mem_cons] at hmem
      rcases hmem with h | h
      · apply hnd.1
        rw [hk, ← h, ← hk2]
        exact List.mem_map_of_mem (fun f => assetKey f.name) hf2
      · exact hfresh f2 (List.mem_cons_of_mem _ hf2) k2 hk2 h
    have hm2 : (GoMap.keys ((k, img) :: m)).Nodup := by
      simp only [GoMap.keys, List.map_cons, List.nodup_cons]
      exact ⟨hkm, hm⟩
    obtain ⟨m2, h1, h2, h3, h4⟩ := ih ((k, img) :: m)
      (fun f2 hf2 => hok f2 (List.mem_cons_of_mem _ hf2)) hnd.2 hfresh2 hm2
    refine ⟨m2, by rw [hstep, h1], ?_, h3, ?_⟩
    · simp only [List.length_cons] at h2 ⊢
      omega
    · intro k2
      rw [h4 k2]
      simp only [GoMap.keys, List.map_cons, List.mem_cons, exists_eq_or_imp, hk,
        Option.some.injEq]
      constructor
      · rintro ((h | h) | h)
        · exact Or.inr (Or.inl h.symm)
        · exact Or.inl h
        · exact Or.inr (Or.inr h)
      · rintro (h | h | h)
        · exact Or.inl (Or.inr h)
        · exact Or.inl (Or.inl h.symm)
        · exact Or.inr h

theorem loadFonts_fresh {Fnt : Type} (fonts : List (FontFile Fnt)) :
    ∀ m : GoMap (Face Fnt),
      (∀ f ∈ fonts, f.parsed.isSome ∧ (assetKey f.name).isSome) →
      (fonts.map fun f => assetKey f.name).Nodup →
      (∀ f ∈ fonts, ∀ n, assetKey f.name = some n →
        n ++ "Large".toList ∉ m.keys ∧ n ++ "Small".toList ∉ m.keys) →
      m.keys.Nodup →
      ∃ m', loadFonts fonts m = some m' ∧ m'.length = m.length + 2 * fonts.length ∧
        m'.keys.Nodup ∧
        ∀ k, k ∈ m'.keys ↔ (k ∈ m.keys ∨ ∃ f ∈ fonts, ∃ n, assetKey f.name = some n ∧
          (k = n ++ "Large".toList ∨ k = n ++ "Small".toList)) := by
  induction fonts with
  | nil =>
    intro m _ _ _ hm
    exact ⟨m, rfl, by simp, hm, by simp⟩
  | cons f fs ih =>
    intro m hok hnd hfresh hm
    obtain ⟨hpar, hkey⟩ := hok f (List.mem_cons_self _ _)
    obtain ⟨fnt, hfnt⟩ := Option.isSome_iff_exists.mp hpar
    obtain ⟨n, hn⟩ := Option.isSome_iff_exists.mp hkey
    obtain ⟨hL, hS⟩ := hfresh f (List.mem_cons_self _ _) n hn
    have hset1 : m.set (n ++ "Large".toList) ⟨fnt, 40⟩
        = (n ++ "Large".toList, ⟨fnt, 40⟩) :: m := GoMap.set_of_not_mem m _ _ hL
    have hS1 : n ++ "Small".toList ∉
        GoMap.keys ((n ++ "Large".toList, (⟨fnt, 40⟩ : Face Fnt)) :: m) := by
      intro hmem
      simp only [GoMap.keys, List.map_cons, List.mem_cons] at hmem
      rcases hmem with h | h
      · exact large_ne_small n n h.symm
      · exact hS h
    have hset2 : GoMap.set ((n ++ "Large".toList, (⟨fnt, 40⟩ : Face Fnt)) :: m)
          (n ++ "Small".toList) ⟨fnt, 25⟩
        = (n ++ "Small".toList, ⟨fnt, 25⟩) :: (n ++ "Large".toList, ⟨fnt, 40⟩) :: m :=
      GoMap.set_of_not_mem _ _ _ hS1
    rw [List.map_cons, List.nodup_cons] at hnd
    have hstep : loadFonts (f :: fs) m = loadFonts fs
        ((n ++ "Small".toList, ⟨fnt, 25⟩) :: (n ++ "Large".toList, ⟨fnt, 40⟩) :: m) := by
      simp only [loadFonts, hfnt, hn, hset1, hset2]
    have hne : ∀ f2 ∈ fs, ∀ n2, assetKey f2.name = some n2 → n2 ≠ n := by
      intro f2 hf2 n2 hn2 heq
      apply hnd.1
      rw [hn, ← heq, ← hn2]
      exact List.mem_map_of_mem (fun f => assetKey f.name) hf2
    have hfresh2 : ∀ f2 ∈ fs, ∀ n2, assetKey f2.name = some n2 →
        n2 ++ "Large".toList ∉ GoMap.keys
            ((n ++ "Small".toList, (⟨fnt, 25⟩ : Face Fnt))
              :: (n ++ "Large".toList, ⟨fnt, 40⟩) :: m)
        ∧ n2 ++ "Small".toList ∉ GoMap.keys
            ((n ++ "Small".toList, (⟨fnt, 25⟩ : Face Fnt))
              :: (n ++ "Large".toList, ⟨fnt, 40⟩) :: m) := by
      intro f2 hf2 n2 hn2
      obtain ⟨h2L, h2S⟩ := hfresh f2 (List.mem_cons_of_mem _ hf2) n2 hn2
      have hd := hne f2 hf2 n2 hn2
      constructor
      · intro hmem
        simp only [GoMap.keys, List.map_cons, List.mem_cons] at hmem
        rcases hmem with h | h | h
        · exact large_ne_small n2 n h
        · exact hd ((List.append_left_inj _).mp h)
        · exact h2L h
      · intro hmem
        simp only [GoMap.keys, List.map_cons, List.mem_cons] at hmem
        rcases hmem with h | h | h
        · exact hd ((List.append_left_inj _).mp h)
        · exact large_ne_small n n2 h.symm
        · exact h2S h
    have hm2 : (GoMap.keys ((n ++ "Small".toList, (⟨fnt, 25⟩ : Face Fnt))
        :: (n ++ "Large".toList, ⟨fnt, 40⟩) :: m)).Nodup := by
      have h1 : (GoMap.keys ((n ++ "Large".toList, (⟨fnt, 40⟩ : Face Fnt)) :: m)).Nodup := by
        simp only [GoMap.keys, List.map_cons, List.nodup_cons]
        exact ⟨hL, hm⟩
      have h2 : GoMap.keys ((n ++ "Small".toList, (⟨fnt, 25⟩ : Face Fnt))
          :: (n ++ "Large".toList, ⟨fnt, 40⟩) :: m)
          = (n ++ "Small".toList)
            :: GoMap.keys ((n ++ "Large".toList, (⟨fnt, 40⟩ : Face Fnt)) :: m) := rfl
      rw [h2, List.nodup_cons]
      exact ⟨hS1, h1⟩
    obtain ⟨m2, h1, h2, h3, h4⟩ := ih _
      (fun f2 hf2 => hok f2 (List.mem_cons_of_mem _ hf2)) hnd.2 hfresh2 hm2
    refine ⟨m2, by rw [hstep, h1], ?_, h3, ?_⟩
    · simp only [List.length_cons] at h2 ⊢
      omega
    · intro k2
      rw [h4 k2]
      simp only [GoMap.keys, List.map_cons, List.mem_cons, exists_eq_or_imp, hn,
        Option.some.injEq]
      constructor
      · rintro ((h | h | h) | h)
        · exact Or.inr (Or.inl ⟨n, rfl, Or.inr h⟩)
        · exact Or.inr (Or.inl ⟨n, rfl, Or.inl h⟩)
        · exact Or.inl h
        · exact Or.inr (Or.inr h)
      · rintro (h | ⟨n2, rfl, h | h⟩ | h)
        · exact Or.inl (Or.inr (Or.inr h))
        · exact Or.inl (Or.inr (Or.inl h))
        · exact Or.inl (Or.inl h)
        · exact Or.inr h

/-- C11, as the code has it: for a listing of N image files and M font files that
all read, decode and parse, whose names all give a key, the keys pairwise
different among the images and among the fonts, `GetAssets` returns an `Assets`
value with exactly N entries in `Images`, keyed by the image files' keys, and
exactly 2*M entries in `Fonts`, keyed by `<name>Large` and `<name>Small` for each
font file's key `<name>`. -/
theorem C11_asset_counts {Img Fnt : Type} (imgs : List (ImageFile Img))
    (fonts : List (FontFile Fnt))
    (hi : ∀ f ∈ imgs, f.decoded.isSome ∧ (assetKey f.name).isSome)
    (hf : ∀ f ∈ fonts, f.parsed.isSome ∧ (assetKey f.name).isSome)
    (hdi : (imgs.map fun f => assetKey f.name).Nodup)
    (hdf : (fonts.map fun f => assetKey f.name).Nodup) :
    ∃ a, GetAssets (some imgs) (some fonts) = some a
      ∧ a.Images.length = imgs.length ∧ a.Fonts.length = 2 * fonts.length
      ∧ a.Images.keys.Nodup ∧ a.Fonts.keys.Nodup
      ∧ (∀ k, k ∈ a.Images.keys ↔ ∃ f ∈ imgs, assetKey f.name = some k)
      ∧ (∀ k, k ∈ a.Fonts.keys ↔ ∃ f ∈ fonts, ∃ n, assetKey f.name = some n ∧
          (k = n ++ "Large".toList ∨ k = n ++ "Small".toList)) := by
  obtain ⟨images, i1, i2, i3, i4⟩ := loadImages_fresh imgs [] hi hdi
    (fun _ _ _ _ hmem => by simp [GoMap.keys] at hmem) (by simp [GoMap.keys])
  obtain ⟨faces, f1, f2, f3, f4⟩ := loadFonts_fresh fonts [] hf hdf
    (fun _ _ _ _ => ⟨fun hmem => by simp [GoMap.keys] at hmem,
      fun hmem => by simp [GoMap.keys] at hmem⟩) (by simp [GoMap.keys])
  refine ⟨⟨faces, images⟩, by simp [GetAssets, i1, f1], ?_, ?_, i3, f3, ?_, ?_⟩
  · simpa using i2
  · simpa using f2
  · intro k
    rw [i4 k]
    simp [GoMap.keys]
  · intro k
    rw [f4 k]
    simp [GoMap.keys]

theorem C11_asset_counts_witness :
    (∀ f ∈ sampleImagesDistinct, f.decoded.isSome ∧ (assetKey f.name).isSome) ∧
    (∀ f ∈ sampleFonts, f.parsed.isSome ∧ (assetKey f.name).isSome) ∧
    (sampleImagesDistinct.map fun f => assetKey f.name).Nodup ∧
    (sampleFonts.map fun f => assetKey f.name).Nodup ∧
    ∃ a, GetAssets (some sampleImagesDistinct) (some sampleFonts) = some a
      ∧ a.Images.length = 2 ∧ a.Fonts.length = 2 := by
  refine ⟨by decide, by decide, by decide, by decide, ?_⟩
  obtain ⟨a, h1, h2, h3, _⟩ := C11_asset_counts sampleImagesDistinct sampleFonts
    (by decide) (by decide) (by decide) (by decide)
  exact ⟨a, h1, h2, h3⟩

/-- C11 fails as stated: two image files that read and decode, "01-beach.png"
and "02-beach.png", leave one entry in `Images`, not two; two font files that
parse, "01-a.ttf" and "02-a.otf", leave two entries in `Fonts`, not four; and for
the one image file "README" no `Assets` value is returned. -/
theorem C11_counterexample :
    (∀ f ∈ sampleImages, f.decoded.isSome) ∧ (sampleImages.map fun f => f.name).Nodup ∧
    (∀ f ∈ sampleFontsClash, f.parsed.isSome) ∧ (sampleFontsClash.map fun f => f.name).Nodup ∧
    sampleImages.length = 2 ∧ sampleFontsClash.length = 2 ∧
    GetAssets (some sampleImages) (some sampleFontsClash)
      = some ⟨[("aSmall".toList, ⟨8, 25⟩), ("aLarge".toList, ⟨8, 40⟩)],
              [("beach".toList, 1)]⟩ ∧
    (∀ f ∈ sampleImagesPlain, f.decoded.isSome) ∧
    GetAssets (some sampleImagesPlain) (some sampleFonts) = none := by
  decide

end Kirby
